import Mathlib

set_option autoImplicit false

/-! Verification development for the LaikaTest JS client SDK.
    Shallow embedding of the TTL prompt cache (`lib/cache.js` and
    `packages/client/lib/cache.js`), the async context store and global
    properties (`packages/auto-otel/src/context.ts`, `properties.ts`),
    the span enrichment processor (`laikaSpanProcessor.ts`), the prompt
    fetch error taxonomy (`lib/prompts.js`, `lib/errors.js`) and input
    validation (`lib/validation.js`), plus the cache path of
    `LaikaTest.getPrompt` (`index.js`).

    Conventions: JS `Date.now()` timestamps are `Nat` milliseconds passed
    explicitly; a JS `Map` is an association list with unique keys
    (replace-on-set); JS `undefined`/`null` is `Option.none`; JS string
    truthiness is `s ≠ ""`; fallible JS code returns `Except`. -/

namespace Laika

/-- Association-list read, mirroring `Map.prototype.get`. -/
def listGet {E : Type} : List (String × E) → String → Option E
  | [], _ => none
  | p :: t, k => if p.1 = k then some p.2 else listGet t k

/-- Association-list write, mirroring `Map.prototype.set`: replaces the
    value at an existing key in place, otherwise appends the new entry. -/
def listSet {E : Type} : List (String × E) → String → E → List (String × E)
  | [], k, v => [(k, v)]
  | p :: t, k, v => if p.1 = k then (k, v) :: t else p :: listSet t k v

/-- Association-list removal, mirroring `Map.prototype.delete`. -/
def listDelete {E : Type} : List (String × E) → String → List (String × E)
  | [], _ => []
  | p :: t, k => if p.1 = k then listDelete t k else p :: listDelete t k

/-- A stored cache entry: `\x7b content, fetchedAt: Date.now() \x7d`. -/
structure CacheEntry where
  content : String
  fetchedAt : Nat
deriving Repr, DecidableEq

namespace Lib

/-- `lib/cache.js` `PromptCache`: a `Map` from composite string keys to
    timestamped entries plus the configured TTL in milliseconds.  The
    periodic sweep interval handle is not modelled (no real time). -/
structure PromptCache where
  cache : List (String × CacheEntry)
  ttl : Nat
deriving Repr, DecidableEq

/-- `lib/cache.js` `generateKey(projectId, promptName, versionId)`:
    a template-literal key, with the `versionId` segment present only
    when `versionId` is truthy (a non-empty string). -/
def PromptCache.generateKey (projectId promptName : String) (versionId : Option String) : String :=
  match versionId with
  | some v => if v = "" then projectId ++ ":" ++ promptName else projectId ++ ":" ++ promptName ++ ":" ++ v
  | none => projectId ++ ":" ++ promptName

/-- `lib/cache.js` `set`: stores content under the generated key with the
    current timestamp, overwriting any existing entry. -/
def PromptCache.set (c : PromptCache) (projectId promptName : String) (versionId : Option String)
    (content : String) (now : Nat) : PromptCache :=
  { c with cache := listSet c.cache (PromptCache.generateKey projectId promptName versionId) ⟨content, now⟩ }

/-- `lib/cache.js` `get`: returns `null` on a missing key; on an entry
    older than the TTL deletes it and returns `null`; otherwise returns
    the stored content.  The updated cache state is returned alongside. -/
def PromptCache.get (c : PromptCache) (projectId promptName : String) (versionId : Option String)
    (now : Nat) : Option String × PromptCache :=
  let key := PromptCache.generateKey projectId promptName versionId
  match listGet c.cache key with
  | none => (none, c)
  | some entry =>
    if c.ttl < now - entry.fetchedAt then (none, { c with cache := listDelete c.cache key })
    else (some entry.content, c)

end Lib

namespace Client

/-- `packages/client/lib/cache.js` `PromptCache`: same structure, but the
    key omits the project id. -/
structure PromptCache where
  cache : List (String × CacheEntry)
  ttl : Nat
deriving Repr, DecidableEq

/-- `packages/client/lib/cache.js` `generateKey(promptName, versionId)`. -/
def PromptCache.generateKey (promptName : String) (versionId : Option String) : String :=
  match versionId with
  | some v => if v = "" then promptName else promptName ++ ":" ++ v
  | none => promptName

/-- `packages/client/lib/cache.js` `set`. -/
def PromptCache.set (c : PromptCache) (promptName : String) (versionId : Option String)
    (content : String) (now : Nat) : PromptCache :=
  { c with cache := listSet c.cache (PromptCache.generateKey promptName versionId) ⟨content, now⟩ }

/-- `packages/client/lib/cache.js` `get`. -/
def PromptCache.get (c : PromptCache) (promptName : String) (versionId : Option String)
    (now : Nat) : Option String × PromptCache :=
  let key := PromptCache.generateKey promptName versionId
  match listGet c.cache key with
  | none => (none, c)
  | some entry =>
    if c.ttl < now - entry.fetchedAt then (none, { c with cache := listDelete c.cache key })
    else (some entry.content, c)

end Client

/-- A span attribute / custom property value: JS `string | number | boolean`.
    JS numbers are modelled as integers; no arithmetic is performed on them,
    they are only passed through. -/
inductive PropValue where
  | str (s : String)
  | num (n : Int)
  | bool (b : Bool)
deriving Repr, DecidableEq

/-- `packages/auto-otel/src/context.ts` `LaikaContext`: the value stored in
    the `AsyncLocalStorage`. -/
structure LaikaContext where
  sessionId : Option String
  userId : Option String
deriving Repr, DecidableEq

/-- The mutable module state of `context.ts` and `properties.ts` together:
    `asyncStore` is `asyncLocalStorage.getStore()` (`none` when execution is
    outside every `runWithContext` extent), and `globalProps` is the
    module-level `const properties: Map<string, ...>` of `properties.ts`. -/
structure OtelState where
  asyncStore : Option LaikaContext
  globalProps : List (String × PropValue)
deriving Repr, DecidableEq

/-- `context.ts` `getContext()`: the stored context or the default. -/
def getContext (w : OtelState) : LaikaContext :=
  w.asyncStore.getD ⟨none, none⟩

/-- `context.ts` `setSessionId`: mutates the store only when one exists. -/
def setSessionId (sessionId : String) (w : OtelState) : OtelState :=
  match w.asyncStore with
  | some st => { w with asyncStore := some { st with sessionId := some sessionId } }
  | none => w

/-- `context.ts` `getSessionId`. -/
def getSessionId (w : OtelState) : Option String :=
  (getContext w).sessionId

/-- `context.ts` `clearSessionId`. -/
def clearSessionId (w : OtelState) : OtelState :=
  match w.asyncStore with
  | some st => { w with asyncStore := some { st with sessionId := none } }
  | none => w

/-- `context.ts` `setUserId`. -/
def setUserId (userId : String) (w : OtelState) : OtelState :=
  match w.asyncStore with
  | some st => { w with asyncStore := some { st with userId := some userId } }
  | none => w

/-- `context.ts` `getUserId`. -/
def getUserId (w : OtelState) : Option String :=
  (getContext w).userId

/-- `context.ts` `clearUserId`. -/
def clearUserId (w : OtelState) : OtelState :=
  match w.asyncStore with
  | some st => { w with asyncStore := some { st with userId := none } }
  | none => w

/-- `context.ts` `runWithContext` (and `runWithContextAsync`, which differs
    only in the promise wrapper): `asyncLocalStorage.run` installs a fresh
    `\x7b sessionId: null, userId: null \x7d` store for the dynamic extent of
    the callback and restores the previous store afterwards.  The module-level
    property map is untouched by scope entry and exit.  The callback is
    modelled as a state transformer returning a value. -/
def runWithContext {α : Type} (callback : OtelState → α × OtelState) (w : OtelState) :
    α × OtelState :=
  let r := callback { w with asyncStore := some ⟨none, none⟩ }
  (r.1, { r.2 with asyncStore := w.asyncStore })

/-- `properties.ts` `setProperty`: writes to the module-level global map,
    regardless of any ambient context scope. -/
def setProperty (key : String) (value : PropValue) (w : OtelState) : OtelState :=
  { w with globalProps := listSet w.globalProps key value }

/-- `properties.ts` `setProperties`: sets each entry in turn. -/
def setProperties (props : List (String × PropValue)) (w : OtelState) : OtelState :=
  props.foldl (fun acc p => setProperty p.1 p.2 acc) w

/-- `properties.ts` `getProperties`: the contents of the global map (the JS
    code returns them converted to a fresh plain object). -/
def getProperties (w : OtelState) : List (String × PropValue) :=
  w.globalProps

/-- `properties.ts` `clearProperties`. -/
def clearProperties (w : OtelState) : OtelState :=
  { w with globalProps := [] }

/-- `properties.ts` `removeProperty`. -/
def removeProperty (key : String) (w : OtelState) : OtelState :=
  { w with globalProps := listDelete w.globalProps key }

/-- `laikaSpanProcessor.ts`: the shape returned by the experiment-assignment
    collaborator's `getCurrentExperiment`. -/
structure ExperimentAssignment where
  experimentId : String
  variantId : String
  userId : Option String
deriving Repr, DecidableEq

/-- The observable states of the optional `@laikatest/client` collaborator:
    module absent (`require` raises MODULE_NOT_FOUND), module present with no
    current assignment (or without a `getCurrentExperiment` function), module
    present with an assignment, or the probe raising an unexpected error. -/
inductive CollabState where
  | absent
  | noAssignment
  | assignment (e : ExperimentAssignment)
  | throws (message : String)
deriving Repr, DecidableEq

/-- The raw body of `getExperimentContext` before its `try/catch`: the
    `require` plus the `getCurrentExperiment()` call, which may raise. -/
def probeExperiment : CollabState → Except String (Option ExperimentAssignment)
  | CollabState.absent => Except.error "MODULE_NOT_FOUND"
  | CollabState.noAssignment => Except.ok none
  | CollabState.assignment e => Except.ok (some e)
  | CollabState.throws m => Except.error m

/-- `laikaSpanProcessor.ts` `getExperimentContext`: the probe wrapped in
    `try \x7b ... \x7d catch \x7b ... \x7d` with an empty catch block - every
    error is swallowed and nothing is written to the console.  The second
    component is the list of console log lines produced (always empty, since
    the catch block contains only a comment). -/
def getExperimentContext (cs : CollabState) : Option ExperimentAssignment × List String :=
  match probeExperiment cs with
  | Except.ok r => (r, [])
  | Except.error _ => (none, [])

/-- The `span.setAttribute` call made for the session id in
    `LaikaSpanProcessor.onStart`: attached only when `getSessionId()` is
    truthy (non-null and non-empty). -/
def sessionAttrsOf (w : OtelState) : List (String × PropValue) :=
  match getSessionId w with
  | some s => if s = "" then [] else [("laika.session.id", PropValue.str s)]
  | none => []

/-- The `span.setAttribute` call made for the user id in `onStart`. -/
def userAttrsOf (w : OtelState) : List (String × PropValue) :=
  match getUserId w with
  | some u => if u = "" then [] else [("laika.user.id", PropValue.str u)]
  | none => []

/-- The `span.setAttribute` calls made for the custom properties in
    `onStart`: one prefixed attribute per property, the value passed through
    unchanged. -/
def propAttrsOf (w : OtelState) : List (String × PropValue) :=
  (getProperties w).map (fun p => ("laika.property." ++ p.1, p.2))

/-- The `span.setAttribute` calls made for the experiment context in
    `onStart`, when the collaborator reports an assignment; the optional
    experiment user id is again subject to a truthiness test. -/
def experimentAttrsOf (cs : CollabState) : List (String × PropValue) :=
  match (getExperimentContext cs).1 with
  | some e =>
    [("laika.experiment.id", PropValue.str e.experimentId),
     ("laika.experiment.variant_id", PropValue.str e.variantId)]
    ++ (match e.userId with
        | some u => if u = "" then [] else [("laika.experiment.user_id", PropValue.str u)]
        | none => [])
  | none => []

/-- The attribute list and console output produced by
    `LaikaSpanProcessor.onStart`: the `span.setAttribute` calls collected in
    program order (session id, user id, properties, experiment context),
    paired with the console log lines (from the probe only). -/
def onStartCore (w : OtelState) (cs : CollabState) : List (String × PropValue) × List String :=
  (sessionAttrsOf w ++ userAttrsOf w ++ propAttrsOf w ++ experimentAttrsOf cs,
   (getExperimentContext cs).2)

/-- `LaikaSpanProcessor.onStart` typed as fallible code: the only subcall that
    can raise is the collaborator probe, and `getExperimentContext` catches it,
    so the body consists of total operations and always returns normally. -/
def onStart (w : OtelState) (cs : CollabState) :
    Except String (List (String × PropValue) × List String) :=
  Except.ok (onStartCore w cs)

/-- The `data` object of a successful API response body in `lib/prompts.js`
    (`parsed.data.content`). -/
structure ApiData where
  content : String
deriving Repr, DecidableEq

/-- A parsed API response body as used by `lib/prompts.js`: the `success`
    flag (absence of the field is falsy, hence `false`), the optional `error`
    message, and the optional `data` object. -/
structure ApiJson where
  success : Bool
  error : Option String
  data : Option ApiData
deriving Repr, DecidableEq

/-- The raw body string of an HTTP response, abstracted to whether
    `JSON.parse` succeeds on it and, when it does, to the parsed value. -/
inductive BodyData where
  | invalidJson (raw : String)
  | validJson (j : ApiJson)
deriving Repr, DecidableEq

/-- The outcome of `makeHttpRequest` for one request: a transport failure
    (connection error or timeout, rejecting the promise) or a response with
    a status code and a body. -/
inductive HttpOutcome where
  | transportError (message : String)
  | response (statusCode : Nat) (body : BodyData)
deriving Repr, DecidableEq

/-- `lib/errors.js`: the SDK error classes, plus `jsError` for a plain
    JS `Error` (as thrown by `parseApiResponse`). -/
inductive LaikaError where
  | validationError (message : String)
  | authenticationError (message : String)
  | laikaServiceError (message : String) (statusCode : Nat) (response : ApiJson)
  | networkError (message : String) (originalError : String)
  | jsError (message : String)
deriving Repr, DecidableEq

/-- The `name` field of the corresponding JS error class. -/
def LaikaError.kind : LaikaError → String
  | LaikaError.validationError _ => "ValidationError"
  | LaikaError.authenticationError _ => "AuthenticationError"
  | LaikaError.laikaServiceError _ _ _ => "LaikaServiceError"
  | LaikaError.networkError _ _ => "NetworkError"
  | LaikaError.jsError _ => "Error"

/-- The kind of error of a fetch outcome, `"ok"` on success. -/
def errorKind (r : Except LaikaError String) : String :=
  match r with
  | Except.ok _ => "ok"
  | Except.error e => e.kind

/-- JS `x || d` on an optional string field: the default replaces both a
    missing field and an empty string. -/
def jsOrDefault (o : Option String) (d : String) : String :=
  match o with
  | none => d
  | some s => if s = "" then d else s

/-- `lib/prompts.js` `parseApiResponse`: `JSON.parse` wrapped so that a parse
    failure becomes a plain `Error('Invalid JSON response from server')`. -/
def parseApiResponse (b : BodyData) : Except LaikaError ApiJson :=
  match b with
  | BodyData.invalidJson _ => Except.error (LaikaError.jsError "Invalid JSON response from server")
  | BodyData.validJson j => Except.ok j

/-- `lib/prompts.js` `handleApiError`: 401 becomes `AuthenticationError`,
    everything else becomes `LaikaServiceError` with the status code and the
    parsed body. -/
def handleApiError (statusCode : Nat) (parsed : ApiJson) : Except LaikaError String :=
  if statusCode = 401 then
    Except.error (LaikaError.authenticationError (jsOrDefault parsed.error "Invalid API key"))
  else
    Except.error (LaikaError.laikaServiceError (jsOrDefault parsed.error "API request failed")
      statusCode parsed)

/-- `lib/prompts.js` `fetchPrompt`, with the transport abstracted into the
    `outcome` the request produces (URL construction and headers do not affect
    the control flow modelled here): a rejected request becomes
    `NetworkError`; otherwise the body is parsed, a `200` + `success` response
    yields `parsed.data.content` (a `TypeError` if `data` is missing), and
    everything else goes to `handleApiError`. -/
def fetchPrompt (outcome : HttpOutcome) : Except LaikaError String :=
  match outcome with
  | HttpOutcome.transportError e =>
    Except.error (LaikaError.networkError "Failed to connect to LaikaTest API" e)
  | HttpOutcome.response statusCode body => do
    let parsed ← parseApiResponse body
    if statusCode = 200 ∧ parsed.success = true then
      match parsed.data with
      | some d => pure d.content
      | none => Except.error (LaikaError.jsError "Cannot read properties of undefined")
    else
      handleApiError statusCode parsed

/-- JS `String.prototype.trim`: whitespace removed from both ends. -/
def jsTrim (s : String) : String :=
  String.mk (((s.data.dropWhile Char.isWhitespace).reverse.dropWhile Char.isWhitespace).reverse)

/-- `lib/validation.js` `validatePromptName`: requires a string whose trimmed
    form is non-empty; `none` stands for a missing or non-string argument. -/
def validatePromptName (promptName : Option String) : Except LaikaError Unit :=
  match promptName with
  | none =>
    Except.error (LaikaError.validationError "Prompt name is required and must be a non-empty string")
  | some s =>
    if jsTrim s = "" then
      Except.error (LaikaError.validationError "Prompt name is required and must be a non-empty string")
    else Except.ok ()

/-- The test of `/^(?:v?\d+)$/` on a character list: digits only, or `v`
    followed by at least one digit. -/
def matchesVersionIdRegexAux : List Char → Bool
  | [] => false
  | c :: rest =>
    if c = 'v' then !rest.isEmpty && rest.all Char.isDigit
    else Char.isDigit c && rest.all Char.isDigit

/-- The test of `/^(?:v?\d+)$/` on a string. -/
def matchesVersionIdRegex (s : String) : Bool :=
  matchesVersionIdRegexAux s.data

/-- `versionId.replace(/^v/, '')` on a character list. -/
def stripLeadingVAux : List Char → List Char
  | [] => []
  | c :: rest => if c = 'v' then rest else c :: rest

/-- `versionId.replace(/^v/, '')`: removes a single leading `v`. -/
def stripLeadingV (s : String) : String :=
  String.mk (stripLeadingVAux s.data)

/-- `lib/validation.js` `validateVersionId`: a falsy argument (`undefined`,
    `null`, `""`, ...) returns `undefined`; a string longer than 128
    characters or failing the regex throws `ValidationError`; otherwise the
    leading `v` is stripped and the result returned.  The JS UTF-16 `length`
    is modelled as the codepoint count (they agree on the ASCII strings the
    regex accepts). -/
def validateVersionId (versionId : Option String) : Except LaikaError (Option String) :=
  match versionId with
  | none => Except.ok none
  | some s =>
    if s = "" then Except.ok none
    else if 128 < s.length then
      Except.error (LaikaError.validationError "Version ID is too long. Maximum length is 128 characters.")
    else if matchesVersionIdRegex s then Except.ok (some (stripLeadingV s))
    else
      Except.error (LaikaError.validationError "Version ID must be digits only (e.g., \"10\") or \"v\" followed by digits (e.g., \"v10\").")

/-- The cache key a `getPrompt(promptName, \x7b versionId \x7d)` call addresses:
    `index.js` validates the version id and hands the result to
    `PromptCache.generateKey` via `cache.get`/`cache.set`. -/
def getPromptKey (promptName : String) (rawVersionId : Option String) :
    Except LaikaError String :=
  (validateVersionId rawVersionId).map (Client.PromptCache.generateKey promptName)

/-- Result of the cache/fetch slice of `LaikaTest.getPrompt`: the content it
    resolves with, the cache state afterwards, and whether the network fetch
    ran. -/
structure GetPromptResult where
  content : String
  cache : Client.PromptCache
  usedNetwork : Bool
deriving Repr, DecidableEq

/-- The cache interaction of `index.js` `LaikaTest.getPrompt` (after
    validation, with the network fetch abstracted as the content `fetched` it
    would resolve with): when caching is enabled and not bypassed the cache is
    consulted, and a truthy cached value is returned without fetching;
    otherwise the content is fetched and, when caching is enabled, stored. -/
def getPrompt (cacheEnabled : Bool) (cache : Client.PromptCache) (promptName : String)
    (versionId : Option String) (bypassCache : Bool) (now : Nat) (fetched : String) :
    GetPromptResult :=
  let probe := if cacheEnabled && !bypassCache then cache.get promptName versionId now
               else (none, cache)
  match probe.1 with
  | some cached =>
    if cached = "" then
      ⟨fetched, if cacheEnabled then probe.2.set promptName versionId fetched now else probe.2, true⟩
    else ⟨cached, probe.2, false⟩
  | none =>
    ⟨fetched, if cacheEnabled then probe.2.set promptName versionId fetched now else probe.2, true⟩

end Laika

open Laika

theorem listGet_listSet_self {E : Type} (l : List (String × E)) (k : String) (v : E) :
    listGet (listSet l k v) k = some v := by
  induction l with
  | nil => simp [listSet, listGet]
  | cons p t ih =>
    by_cases h : p.1 = k
    · simp [listSet, listGet, h]
    · simp [listSet, listGet, h, ih]

theorem listGet_listDelete_self {E : Type} (l : List (String × E)) (k : String) :
    listGet (listDelete l k) k = none := by
  induction l with
  | nil => simp [listDelete, listGet]
  | cons p t ih =>
    by_cases h : p.1 = k
    · simp [listDelete, h, ih]
    · simp [listDelete, listGet, h, ih]

/-- If the key is not found in the front list, lookup continues behind it. -/
theorem listGet_append_of_none {E : Type} {l1 : List (String × E)} (l2 : List (String × E))
    (k : String) (h : listGet l1 k = none) : listGet (l1 ++ l2) k = listGet l2 k := by
  induction l1 with
  | nil => rfl
  | cons p t ih =>
    by_cases hp : p.1 = k
    · simp [listGet, hp] at h
    · simp [listGet, hp] at h ⊢
      exact ih h

/-- A key found in the front list is returned before the back list is seen. -/
theorem listGet_append_of_some {E : Type} {l1 : List (String × E)} (l2 : List (String × E))
    (k : String) {v : E} (h : listGet l1 k = some v) : listGet (l1 ++ l2) k = some v := by
  induction l1 with
  | nil => simp [listGet] at h
  | cons p t ih =>
    by_cases hp : p.1 = k
    · simp [listGet, hp] at h ⊢
      exact h
    · simp [listGet, hp] at h ⊢
      exact ih h

/-- Appending a fixed string on the left is injective. -/
theorem string_append_left_cancel' {a b c : String} (h : a ++ b = a ++ c) : b = c := by
  apply String.ext
  have h2 := congrArg String.data h
  rw [String.data_append, String.data_append] at h2
  exact List.append_cancel_left h2

/-- A string extending `a` cannot equal a string `c` of which `a.data` is not
a prefix. -/
theorem string_append_ne_of_not_pref {a c : String} (k : String)
    (h : ¬ (a.data <+: c.data)) : a ++ k ≠ c := by
  intro he
  exact h ⟨k.data, by rw [← String.data_append, he]⟩

/-- Lookup of a prefixed key in a list whose keys all carry the same prefix
mirrors lookup of the bare key in the original list. -/
theorem listGet_map_prefixed {E : Type} (pref : String) (l : List (String × E)) (k : String) :
    listGet (l.map (fun p => (pref ++ p.1, p.2))) (pref ++ k) = listGet l k := by
  induction l with
  | nil => rfl
  | cons p t ih =>
    by_cases h : p.1 = k
    · simp [listGet, h]
    · have hne : ¬ (pref ++ p.1 = pref ++ k) := fun he => h (string_append_left_cancel' he)
      simp only [List.map_cons, listGet, hne, if_neg, h]
      exact ih

/-- Lookup of a key that does not start with the shared prefix always misses
in a prefixed list. -/
theorem listGet_map_prefixed_none {E : Type} (pref : String) (l : List (String × E))
    (k : String) (h : ¬ (pref.data <+: k.data)) :
    listGet (l.map (fun p => (pref ++ p.1, p.2))) k = none := by
  induction l with
  | nil => rfl
  | cons p t ih =>
    have hne : ¬ (pref ++ p.1 = k) := string_append_ne_of_not_pref p.1 h
    simp only [List.map_cons, listGet, hne, if_neg]
    exact ih

/-- Shared characterization of a read directly after a write on the
`lib/cache.js` cache: value iff within TTL, entry deleted when expired. -/
theorem lib_set_get_characterization (c : Lib.PromptCache) (pid name : String)
    (vid : Option String) (content : String) (t0 t1 : Nat) :
    ((c.set pid name vid content t0).get pid name vid t1).1
        = (if t1 - t0 ≤ c.ttl then some content else none)
    ∧ (c.ttl < t1 - t0 →
        listGet (((c.set pid name vid content t0).get pid name vid t1).2).cache
          (Lib.PromptCache.generateKey pid name vid) = none) := by
  constructor
  · by_cases h : t1 - t0 ≤ c.ttl
    · simp [Lib.PromptCache.get, Lib.PromptCache.set, listGet_listSet_self, h, Nat.not_lt.mpr h]
    · simp [Lib.PromptCache.get, Lib.PromptCache.set, listGet_listSet_self, h, Nat.lt_of_not_le h]
  · intro h
    simp [Lib.PromptCache.get, Lib.PromptCache.set, listGet_listSet_self, h,
      listGet_listDelete_self]

/-- Claim C1: after `set` stores a value at time `t0`, a `get` of the same key
at time `t1` returns the value when `t1 - t0 ≤ ttl` and returns `null` when
`t1 - t0 > ttl`, deleting the entry from the map in the expired case. -/
theorem c1_cache_get_respects_ttl (c : Lib.PromptCache) (pid name : String)
    (vid : Option String) (content : String) (t0 t1 : Nat) :
    ((c.set pid name vid content t0).get pid name vid t1).1
        = (if t1 - t0 ≤ c.ttl then some content else none)
    ∧ (c.ttl < t1 - t0 →
        listGet (((c.set pid name vid content t0).get pid name vid t1).2).cache
          (Lib.PromptCache.generateKey pid name vid) = none) :=
  lib_set_get_characterization c pid name vid content t0 t1

/-- Witness for C1 at a concrete expired read: TTL 5, write at 0, read at 10. -/
theorem c1_cache_get_respects_ttl_witness :
    (((⟨[], 5⟩ : Lib.PromptCache).set "proj" "p" none "v1" 0).get "proj" "p" none 10).1 = none
    ∧ listGet ((((⟨[], 5⟩ : Lib.PromptCache).set "proj" "p" none "v1" 0).get "proj" "p" none 10).2).cache
        (Lib.PromptCache.generateKey "proj" "p" none) = none := by
  have h := c1_cache_get_respects_ttl (⟨[], 5⟩ : Lib.PromptCache) "proj" "p" none "v1" 0 10
  exact ⟨h.1.trans (by decide), h.2 (by decide)⟩

/-- Counterexample to claim C3: with `ttl = 0` a `get` at the very same
timestamp as the `set` still returns the stored value (the code expires
only when `now - fetchedAt` is strictly greater than the TTL), so not
every `get` misses. -/
theorem c3_ttl_zero_same_timestamp_hit :
    (((⟨[], 0⟩ : Lib.PromptCache).set "proj" "p" none "v1" 7).get "proj" "p" none 7).1
      = some "v1" := by decide

/-- Claim C3 as amended: with `ttl = 0` every `get` performed strictly after
the `set` misses; a `get` at the identical timestamp still returns the value. -/
theorem c3_ttl_zero_strictly_later_miss (c : Lib.PromptCache) (pid name : String)
    (vid : Option String) (content : String) (t0 t1 : Nat) (h0 : c.ttl = 0) :
    (t0 < t1 → ((c.set pid name vid content t0).get pid name vid t1).1 = none)
    ∧ ((c.set pid name vid content t0).get pid name vid t0).1 = some content := by
  have h := lib_set_get_characterization c pid name vid content t0 t1
  constructor
  · intro hlt
    have h1 : ¬ (t1 - t0 ≤ c.ttl) := by omega
    simpa [h1] using h.1
  · have h' := lib_set_get_characterization c pid name vid content t0 t0
    simpa using h'.1

/-- Witness for the amended C3: TTL 0, write at 3, read at 4 misses; read at 3 hits. -/
theorem c3_ttl_zero_strictly_later_miss_witness :
    (((⟨[], 0⟩ : Lib.PromptCache).set "proj" "p" none "v1" 3).get "proj" "p" none 4).1 = none
    ∧ (((⟨[], 0⟩ : Lib.PromptCache).set "proj" "p" none "v1" 3).get "proj" "p" none 3).1
        = some "v1" := by
  have h := c3_ttl_zero_strictly_later_miss (⟨[], 0⟩ : Lib.PromptCache) "proj" "p" none "v1" 3 4 rfl
  exact ⟨h.1 (by decide), h.2⟩

/-- A non-empty string has positive length. -/
theorem string_ne_empty_length_pos (s : String) (h : s ≠ "") : 0 < s.length := by
  cases s with
  | mk cs =>
    cases cs with
    | nil => exact absurd rfl h
    | cons c t =>
      show 0 < (String.mk (c :: t)).length
      simp [String.length]

/-- Counterexample to claim C8: the version identifier that is the empty string
is distinct from the no-version case, yet `generateKey` produces the same key
for both (the `versionId ? ... : ...` test treats `""` as falsy), so the two
entries collide. -/
theorem c8_empty_version_key_collides :
    Client.PromptCache.generateKey "p" (some "") = Client.PromptCache.generateKey "p" none
    ∧ (some "" : Option String) ≠ none := by
  exact ⟨rfl, by simp⟩

/-- Claim C8 as amended: `generateKey` is deterministic, and for a fixed prompt
name it is injective on version identifiers as long as neither identifier is the
empty string — in particular the no-version case never collides with any
non-empty version, and two distinct non-empty versions never collide. -/
theorem c8_generateKey_injective_on_nonempty_versions (name : String) (v w : Option String)
    (hv : v ≠ some "") (hw : w ≠ some "") (hne : v ≠ w) :
    Client.PromptCache.generateKey name v ≠ Client.PromptCache.generateKey name w := by
  cases v with
  | none =>
    cases w with
    | none => exact absurd rfl hne
    | some s =>
      have hs : s ≠ "" := fun h => hw (by rw [h])
      intro h
      have hlen := congrArg String.length h
      rw [Client.PromptCache.generateKey, Client.PromptCache.generateKey] at hlen
      rw [if_neg hs] at hlen
      rw [String.length_append, String.length_append] at hlen
      have := string_ne_empty_length_pos s hs
      omega
  | some s =>
    have hs : s ≠ "" := fun h => hv (by rw [h])
    cases w with
    | none =>
      intro h
      have hlen := congrArg String.length h
      rw [Client.PromptCache.generateKey, Client.PromptCache.generateKey] at hlen
      rw [if_neg hs] at hlen
      rw [String.length_append, String.length_append] at hlen
      have := string_ne_empty_length_pos s hs
      omega
    | some t =>
      have ht : t ≠ "" := fun h => hw (by rw [h])
      have hst : s ≠ t := fun h => hne (by rw [h])
      intro h
      rw [Client.PromptCache.generateKey, Client.PromptCache.generateKey] at h
      rw [if_neg hs, if_neg ht] at h
      exact hst (string_append_left_cancel' h)

/-- Witness for the amended C8: version "1" and the no-version case give
different keys for prompt "p". -/
theorem c8_generateKey_injective_witness :
    Client.PromptCache.generateKey "p" (some "1") ≠ Client.PromptCache.generateKey "p" none :=
  c8_generateKey_injective_on_nonempty_versions "p" (some "1") none (by decide) (by simp)
    (by simp)

/-- Counterexample to claim C2: a custom property written inside one
`runWithContext` scope is observable from inside a later, sequential
`runWithContext` scope, because `properties.ts` stores properties in a
module-level map that scope entry does not reset.  The second scope reads
`\x7b a: "x" \x7d`, not the empty map the claim requires. -/
theorem c2_properties_leak_across_scopes :
    (runWithContext (fun st => (getProperties st, st))
      ((runWithContext (fun st => ((), setProperty "a" (PropValue.str "x") st))
        (⟨none, []⟩ : OtelState)).2)).1
      = [("a", PropValue.str "x")]
    ∧ (runWithContext (fun st => (getProperties st, st))
        ((runWithContext (fun st => ((), setProperty "a" (PropValue.str "x") st))
          (⟨none, []⟩ : OtelState)).2)).1 ≠ [] :=
  ⟨rfl, by decide⟩

/-- Claim C2 as amended: after an arbitrary first `runWithContext` scope has
run, a second scope starts with `sessionId = null` and `userId = null` — no
session or user write made by the first scope is observable — but the custom
property map seen inside the second scope is the module-global map exactly as
the first scope left it, not an empty map. -/
theorem c2_session_user_isolated_properties_global (w : OtelState)
    (body : OtelState → Unit × OtelState) :
    (runWithContext (fun st => ((getSessionId st, getUserId st, getProperties st), st))
      ((runWithContext body w).2)).1
      = (none, none, ((runWithContext body w).2).globalProps) :=
  rfl

/-- Counterexample to claim C7: `setProperty` called outside any
`runWithContext` extent is not a no-op — the write lands in the module-global
map and `getProperties` (also outside any scope) returns it rather than the
empty default. -/
theorem c7_setProperty_outside_scope_writes :
    getProperties (setProperty "env" (PropValue.str "prod") (⟨none, []⟩ : OtelState))
      = [("env", PropValue.str "prod")]
    ∧ getProperties (setProperty "env" (PropValue.str "prod") (⟨none, []⟩ : OtelState)) ≠ [] :=
  ⟨rfl, by decide⟩

/-- Claim C7 as amended: outside any `runWithContext` extent the session and
user setters and clearers are silent no-ops and the session and user reads
return `null`, and no operation throws; the property setter, however, does
write to the module-global map, and `getProperties` returns that map's current
contents (empty only as long as nothing was ever written). -/
theorem c7_outside_scope_session_noops_properties_write (w : OtelState)
    (h : w.asyncStore = none) (v k : String) (pv : PropValue) :
    setSessionId v w = w ∧ setUserId v w = w
    ∧ clearSessionId w = w ∧ clearUserId w = w
    ∧ getSessionId w = none ∧ getUserId w = none
    ∧ setProperty k pv w = { w with globalProps := listSet w.globalProps k pv }
    ∧ getProperties w = w.globalProps := by
  refine ⟨?_, ?_, ?_, ?_, ?_, ?_, rfl, rfl⟩ <;>
    simp [setSessionId, setUserId, clearSessionId, clearUserId, getSessionId, getUserId,
      getContext, h]

/-- Witness for the amended C7 at the empty outside-scope state. -/
theorem c7_outside_scope_witness :
    setSessionId "s" (⟨none, []⟩ : OtelState) = (⟨none, []⟩ : OtelState)
    ∧ setUserId "s" (⟨none, []⟩ : OtelState) = (⟨none, []⟩ : OtelState)
    ∧ clearSessionId (⟨none, []⟩ : OtelState) = (⟨none, []⟩ : OtelState)
    ∧ clearUserId (⟨none, []⟩ : OtelState) = (⟨none, []⟩ : OtelState)
    ∧ getSessionId (⟨none, []⟩ : OtelState) = none
    ∧ getUserId (⟨none, []⟩ : OtelState) = none
    ∧ setProperty "k" (PropValue.bool true) (⟨none, []⟩ : OtelState)
        = { (⟨none, []⟩ : OtelState) with
              globalProps := listSet (⟨none, []⟩ : OtelState).globalProps "k" (PropValue.bool true) }
    ∧ getProperties (⟨none, []⟩ : OtelState) = (⟨none, []⟩ : OtelState).globalProps :=
  c7_outside_scope_session_noops_properties_write (⟨none, []⟩ : OtelState) rfl "s" "k"
    (PropValue.bool true)

/-- Counterexample to claim C4: when the collaborator probe raises an
unexpected error, `getExperimentContext` swallows it with an empty `catch`
block — the console output is empty, so the error is not logged, contrary to
the claim's "logged and swallowed". -/
theorem c4_probe_error_not_logged :
    probeExperiment (CollabState.throws "boom") = Except.error "boom"
    ∧ (getExperimentContext (CollabState.throws "boom")).2 = [] :=
  ⟨rfl, rfl⟩

/-- Claim C4 as amended: `onStart` never throws, an absent collaborator
module is treated silently as no assignment, and an unexpected probe error is
swallowed silently — without being logged (the catch block writes nothing). -/
theorem c4_onStart_never_throws (w : OtelState) (cs : CollabState) (m : String) :
    (onStart w cs).isOk = true
    ∧ getExperimentContext CollabState.absent = (none, [])
    ∧ getExperimentContext (CollabState.throws m) = (none, []) :=
  ⟨rfl, rfl, rfl⟩

/-- Reading a key that misses the first three attribute segments reaches the
fourth. -/
theorem listGet_append4_of_none3 {E : Type} (A B C D : List (String × E)) (k : String)
    (hA : listGet A k = none) (hB : listGet B k = none) (hC : listGet C k = none) :
    listGet (A ++ B ++ C ++ D) k = listGet D k := by
  have h1 : listGet (A ++ B) k = none := by
    rw [listGet_append_of_none B k hA]; exact hB
  have h2 : listGet (A ++ B ++ C) k = none := by
    rw [listGet_append_of_none C k h1]; exact hC
  exact listGet_append_of_none D k h2

/-- A key found in the first attribute segment wins. -/
theorem listGet_append4_of_first {E : Type} (A B C D : List (String × E)) (k : String)
    {v : E} (hA : listGet A k = some v) : listGet (A ++ B ++ C ++ D) k = some v :=
  listGet_append_of_some D k (listGet_append_of_some C k (listGet_append_of_some B k hA))

/-- A key missing the first two attribute segments is looked up in the last
two. -/
theorem listGet_append4_skip2 {E : Type} (A B C D : List (String × E)) (k : String)
    (hA : listGet A k = none) (hB : listGet B k = none) :
    listGet (A ++ B ++ C ++ D) k = listGet (C ++ D) k := by
  have h1 : listGet (A ++ B) k = none := by
    rw [listGet_append_of_none B k hA]; exact hB
  cases hC : listGet C k with
  | some v =>
    have h2 : listGet (A ++ B ++ C) k = some v := by
      rw [listGet_append_of_none C k h1]; exact hC
    exact (listGet_append_of_some D k h2).trans (listGet_append_of_some D k hC).symm
  | none =>
    have h2 : listGet (A ++ B ++ C) k = none := by
      rw [listGet_append_of_none C k h1]; exact hC
    exact (listGet_append_of_none D k h2).trans (listGet_append_of_none D k hC).symm

theorem sessionAttrsOf_self (w : OtelState) :
    listGet (sessionAttrsOf w) "laika.session.id"
      = (match getSessionId w with
         | some s => if s = "" then none else some (PropValue.str s)
         | none => none) := by
  cases h : getSessionId w with
  | none => simp [sessionAttrsOf, h, listGet]
  | some s =>
    by_cases hs : s = "" <;> simp [sessionAttrsOf, h, hs, listGet]

theorem sessionAttrsOf_other (w : OtelState) (k : String) (hk : k ≠ "laika.session.id") :
    listGet (sessionAttrsOf w) k = none := by
  cases h : getSessionId w with
  | none => simp [sessionAttrsOf, h, listGet]
  | some s =>
    by_cases hs : s = "" <;> simp [sessionAttrsOf, h, hs, listGet, Ne.symm hk]

theorem userAttrsOf_self (w : OtelState) :
    listGet (userAttrsOf w) "laika.user.id"
      = (match getUserId w with
         | some u => if u = "" then none else some (PropValue.str u)
         | none => none) := by
  cases h : getUserId w with
  | none => simp [userAttrsOf, h, listGet]
  | some u =>
    by_cases hu : u = "" <;> simp [userAttrsOf, h, hu, listGet]

theorem userAttrsOf_other (w : OtelState) (k : String) (hk : k ≠ "laika.user.id") :
    listGet (userAttrsOf w) k = none := by
  cases h : getUserId w with
  | none => simp [userAttrsOf, h, listGet]
  | some u =>
    by_cases hu : u = "" <;> simp [userAttrsOf, h, hu, listGet, Ne.symm hk]

theorem propAttrsOf_pref (w : OtelState) (k : String) :
    listGet (propAttrsOf w) ("laika.property." ++ k) = listGet (getProperties w) k :=
  listGet_map_prefixed "laika.property." (getProperties w) k

theorem propAttrsOf_not_pref (w : OtelState) (k : String)
    (h : ¬ ("laika.property.".data <+: k.data)) :
    listGet (propAttrsOf w) k = none :=
  listGet_map_prefixed_none "laika.property." (getProperties w) k h

theorem experimentAttrsOf_other (cs : CollabState) (k : String)
    (h1 : k ≠ "laika.experiment.id") (h2 : k ≠ "laika.experiment.variant_id")
    (h3 : k ≠ "laika.experiment.user_id") :
    listGet (experimentAttrsOf cs) k = none := by
  cases he : (getExperimentContext cs).1 with
  | none => simp [experimentAttrsOf, he, listGet]
  | some e =>
    cases hu : e.userId with
    | none =>
      simp [experimentAttrsOf, he, hu, listGet, Ne.symm h1, Ne.symm h2]
    | some u =>
      by_cases hue : u = "" <;>
        simp [experimentAttrsOf, he, hu, hue, listGet, Ne.symm h1, Ne.symm h2, Ne.symm h3]

/-- Counterexample to claim C5: with an ambient session id that is non-null
but empty (`setSessionId("")` inside a scope), `onStart` attaches no session
attribute — the code tests truthiness (`if (sessionId)`), not non-nullness,
so the claimed "if and only if non-null" fails. -/
theorem c5_empty_session_id_attribute_absent :
    getSessionId (⟨some ⟨some "", none⟩, []⟩ : OtelState) = some ""
    ∧ listGet (onStartCore (⟨some ⟨some "", none⟩, []⟩ : OtelState) CollabState.absent).1
        "laika.session.id" = none :=
  ⟨rfl, rfl⟩

/-- Claim C5 as amended: the span started under ambient state `w` carries the
namespaced session attribute exactly when the ambient session id is non-null
and non-empty (with that string value), likewise for the user attribute, and
one prefixed attribute per ambient property whose value is passed through
unconverted; with no ambient context (outside any scope, empty property map,
collaborator absent) the span carries no attributes at all. -/
theorem c5_onStart_attribute_characterization (w : OtelState) (cs : CollabState) :
    listGet (onStartCore w cs).1 "laika.session.id"
        = (match getSessionId w with
           | some s => if s = "" then none else some (PropValue.str s)
           | none => none)
    ∧ listGet (onStartCore w cs).1 "laika.user.id"
        = (match getUserId w with
           | some u => if u = "" then none else some (PropValue.str u)
           | none => none)
    ∧ (∀ k : String, listGet (onStartCore w cs).1 ("laika.property." ++ k)
        = listGet (getProperties w) k)
    ∧ onStartCore (⟨none, []⟩ : OtelState) CollabState.absent = ([], []) := by
  refine ⟨?_, ?_, ?_, rfl⟩
  · have hB := userAttrsOf_other w "laika.session.id" (by decide)
    have hC := propAttrsOf_not_pref w "laika.session.id" (by decide)
    have hD := experimentAttrsOf_other cs "laika.session.id" (by decide) (by decide) (by decide)
    rw [← sessionAttrsOf_self w]
    cases hA : listGet (sessionAttrsOf w) "laika.session.id" with
    | some v => exact listGet_append4_of_first _ _ _ _ _ hA
    | none =>
      exact (listGet_append4_of_none3 _ _ _ _ _ hA hB hC).trans hD
  · have hA := sessionAttrsOf_other w "laika.user.id" (by decide)
    have hC := propAttrsOf_not_pref w "laika.user.id" (by decide)
    have hD := experimentAttrsOf_other cs "laika.user.id" (by decide) (by decide) (by decide)
    rw [← userAttrsOf_self w]
    cases hB : listGet (userAttrsOf w) "laika.user.id" with
    | some v =>
      show listGet (sessionAttrsOf w ++ userAttrsOf w ++ propAttrsOf w ++ experimentAttrsOf cs)
        "laika.user.id" = some v
      have h1 : listGet (sessionAttrsOf w ++ userAttrsOf w) "laika.user.id" = some v := by
        rw [listGet_append_of_none (userAttrsOf w) "laika.user.id" hA]; exact hB
      exact listGet_append_of_some _ _ (listGet_append_of_some _ _ h1)
    | none =>
      exact (listGet_append4_of_none3 _ _ _ _ _ hA hB hC).trans hD
  · intro k
    have hA := sessionAttrsOf_other w ("laika.property." ++ k)
      (string_append_ne_of_not_pref k (by decide))
    have hB := userAttrsOf_other w ("laika.property." ++ k)
      (string_append_ne_of_not_pref k (by decide))
    have hD := experimentAttrsOf_other cs ("laika.property." ++ k)
      (string_append_ne_of_not_pref k (by decide))
      (string_append_ne_of_not_pref k (by decide))
      (string_append_ne_of_not_pref k (by decide))
    rw [← propAttrsOf_pref w k]
    cases hC : listGet (propAttrsOf w) ("laika.property." ++ k) with
    | some v =>
      have h2 : listGet (sessionAttrsOf w ++ userAttrsOf w ++ propAttrsOf w)
          ("laika.property." ++ k) = some v := by
        have h1 : listGet (sessionAttrsOf w ++ userAttrsOf w) ("laika.property." ++ k) = none := by
          rw [listGet_append_of_none (userAttrsOf w) _ hA]; exact hB
        rw [listGet_append_of_none (propAttrsOf w) _ h1]; exact hC
      exact listGet_append_of_some _ _ h2
    | none =>
      exact (listGet_append4_of_none3 _ _ _ _ _ hA hB hC).trans hD

/-- A non-empty string has a non-empty character list. -/
theorem string_data_ne_nil {s : String} (h : s ≠ "") : s.data ≠ [] := by
  intro hd
  exact h (String.ext (by simp [hd]))

/-- Counterexample to claim C6: a 401 response whose body is not valid JSON
does not raise `AuthenticationError` — `parseApiResponse` throws a plain
`Error` before `handleApiError` can inspect the status code. -/
theorem c6_invalid_json_401_not_authentication_error :
    fetchPrompt (HttpOutcome.response 401 (BodyData.invalidJson "oops"))
      = Except.error (LaikaError.jsError "Invalid JSON response from server")
    ∧ errorKind (fetchPrompt (HttpOutcome.response 401 (BodyData.invalidJson "oops")))
        ≠ "AuthenticationError" :=
  ⟨rfl, by decide⟩

/-- Claim C6 as amended: malformed caller input raises `ValidationError`;
transport failures raise `NetworkError`; a response whose body is not valid
JSON raises a plain JSON-parse `Error` regardless of status; a 401 response
with a valid JSON body raises `AuthenticationError`; and every other
non-success response with a valid JSON body raises `LaikaServiceError`
carrying the status code and the parsed body. -/
theorem c6_error_kind_classification (e raw : String) (s : Nat) (j : ApiJson) :
    fetchPrompt (HttpOutcome.transportError e)
        = Except.error (LaikaError.networkError "Failed to connect to LaikaTest API" e)
    ∧ fetchPrompt (HttpOutcome.response s (BodyData.invalidJson raw))
        = Except.error (LaikaError.jsError "Invalid JSON response from server")
    ∧ fetchPrompt (HttpOutcome.response 401 (BodyData.validJson j))
        = Except.error (LaikaError.authenticationError (jsOrDefault j.error "Invalid API key"))
    ∧ (s ≠ 401 → s ≠ 200 →
        fetchPrompt (HttpOutcome.response s (BodyData.validJson j))
          = Except.error
              (LaikaError.laikaServiceError (jsOrDefault j.error "API request failed") s j))
    ∧ validatePromptName (some "")
        = Except.error (LaikaError.validationError "Prompt name is required and must be a non-empty string") := by
  refine ⟨rfl, rfl, rfl, ?_, rfl⟩
  intro hs hn
  simp [fetchPrompt, parseApiResponse, handleApiError, hs, hn, bind, Except.bind]

/-- Witness for the amended C6: a 500 response with a valid JSON body yields
`LaikaServiceError` with the status code and body. -/
theorem c6_error_kind_classification_witness :
    fetchPrompt (HttpOutcome.response 500 (BodyData.validJson ⟨false, none, none⟩))
      = Except.error (LaikaError.laikaServiceError "API request failed" 500 ⟨false, none, none⟩) :=
  (c6_error_kind_classification "e" "raw" 500 ⟨false, none, none⟩).2.2.2.1 (by decide) (by decide)

/-- Counterexample to claim C9: the empty string is a present version id that
does not match `v?digits`, yet `validateVersionId` accepts it without
throwing, silently treating it as absent (the falsy early-return fires before
the regex test). -/
theorem c9_empty_version_accepted :
    validateVersionId (some "") = Except.ok none
    ∧ matchesVersionIdRegex "" = false :=
  ⟨rfl, rfl⟩

/-- Claim C9 as amended: `getPrompt` accepts a versionId when it is absent,
when it is falsy like the empty string (then treated as absent), or when it
is a string of at most 128 characters matching digits optionally preceded by
`v`; any other string throws `ValidationError`.  An accepted version has its
leading `v` stripped before caching and fetching, so "v10" and "10" address
the same cache key and the same remote version. -/
theorem c9_validateVersionId_characterization :
    validateVersionId none = Except.ok none
    ∧ validateVersionId (some "") = Except.ok none
    ∧ (∀ s : String, s ≠ "" → s.length ≤ 128 → matchesVersionIdRegex s = true →
        validateVersionId (some s) = Except.ok (some (stripLeadingV s)))
    ∧ (∀ s : String, s ≠ "" → s.length ≤ 128 → matchesVersionIdRegex s = false →
        validateVersionId (some s)
          = Except.error (LaikaError.validationError
              "Version ID must be digits only (e.g., \"10\") or \"v\" followed by digits (e.g., \"v10\")."))
    ∧ (∀ s : String, 128 < s.length →
        validateVersionId (some s)
          = Except.error (LaikaError.validationError
              "Version ID is too long. Maximum length is 128 characters."))
    ∧ (validateVersionId (some "v10") = Except.ok (some "10")
        ∧ validateVersionId (some "10") = Except.ok (some "10"))
    ∧ (∀ name : String, getPromptKey name (some "v10") = getPromptKey name (some "10")) := by
  refine ⟨rfl, rfl, ?_, ?_, ?_, ⟨rfl, rfl⟩, fun name => rfl⟩
  · intro s hne hlen hm
    simp [validateVersionId, hne, hm, Nat.not_lt.mpr hlen]
  · intro s hne hlen hm
    simp [validateVersionId, hne, hm, Nat.not_lt.mpr hlen]
  · intro s h
    have hne : s ≠ "" := by
      rintro rfl
      exact absurd h (by decide)
    simp [validateVersionId, hne, h]

/-- Witness for the amended C9: "0042" is accepted unchanged, "x1" is
rejected with `ValidationError`, and "v10" and "10" share one cache key. -/
theorem c9_validateVersionId_witness :
    validateVersionId (some "0042") = Except.ok (some (stripLeadingV "0042"))
    ∧ validateVersionId (some "x1")
        = Except.error (LaikaError.validationError
            "Version ID must be digits only (e.g., \"10\") or \"v\" followed by digits (e.g., \"v10\").")
    ∧ getPromptKey "p" (some "v10") = getPromptKey "p" (some "10") := by
  have h := c9_validateVersionId_characterization
  exact ⟨h.2.2.1 "0042" (by decide) (by decide) (by decide),
         h.2.2.2.1 "x1" (by decide) (by decide) (by decide),
         h.2.2.2.2.2.2 "p"⟩

/-- A read directly after a write on the client cache, within the TTL:
the stored content is returned and the cache is left unchanged. -/
theorem client_set_get_fresh (c : Client.PromptCache) (name : String) (vid : Option String)
    (content : String) (t0 now : Nat) (h : now - t0 ≤ c.ttl) :
    (c.set name vid content t0).get name vid now = (some content, c.set name vid content t0) := by
  simp [Client.PromptCache.get, Client.PromptCache.set, listGet_listSet_self, Nat.not_lt.mpr h]

/-- Claim C10: with caching enabled and not bypassed, a fresh cache entry
whose content is falsy (the empty string) is treated as a miss — the network
fetch runs anyway — while a fresh truthy cached value is returned as the
content with no network fetch and the cache unchanged. -/
theorem c10_falsy_cached_refetch_truthy_served (cache : Client.PromptCache) (name : String)
    (vid : Option String) (t0 now : Nat) (fetchedContent : String)
    (hfresh : now - t0 ≤ cache.ttl) :
    (getPrompt true (cache.set name vid "" t0) name vid false now fetchedContent).usedNetwork
        = true
    ∧ (∀ content : String, content ≠ "" →
        getPrompt true (cache.set name vid content t0) name vid false now fetchedContent
          = ⟨content, cache.set name vid content t0, false⟩) := by
  constructor
  · have h1 := client_set_get_fresh cache name vid "" t0 now hfresh
    simp [getPrompt, h1]
  · intro content hc
    have h2 := client_set_get_fresh cache name vid content t0 now hfresh
    simp [getPrompt, h2, hc]

/-- Witness for C10: an empty cached value triggers the fetch; a non-empty
one is served from the cache. -/
theorem c10_falsy_cached_refetch_witness :
    (getPrompt true ((⟨[], 5⟩ : Client.PromptCache).set "p" none "" 0) "p" none false 3
        "fresh").usedNetwork = true
    ∧ getPrompt true ((⟨[], 5⟩ : Client.PromptCache).set "p" none "hit" 0) "p" none false 3
        "fresh"
        = ⟨"hit", (⟨[], 5⟩ : Client.PromptCache).set "p" none "hit" 0, false⟩ := by
  have h := c10_falsy_cached_refetch_truthy_served (⟨[], 5⟩ : Client.PromptCache) "p" none 0 3
    "fresh" (by decide)
  exact ⟨h.1, h.2 "hit" (by decide)⟩
